import Mathlib

/-!
Shallow embedding of the blinds spin-control firmware (src/main.cpp of
arduino-homekit-blinds).  The firmware estimates the position of a motorized
blind from elapsed spin time and calibrated speeds, and persists the estimate
to EEPROM when a spin session stops.  We model the C doubles exactly as
rationals extended with the two infinities and NaN (rounding is not modelled;
all quantities of interest are exactly representable), the 32-bit unsigned
millis clock arithmetic with an explicit modulus, and the EEPROM / servo
effects as observable fields of the state record.
-/

namespace Blinds

/-- Model of a C `double`: an exact rational, one of the two infinities, or
NaN.  Rounding of finite values is not modelled. -/
inductive D where
  | fin (q : ℚ)
  | pinf
  | ninf
  | nan
deriving DecidableEq

namespace D

/-- IEEE negation. -/
def neg : D → D
  | fin q => fin (-q)
  | pinf => ninf
  | ninf => pinf
  | nan => nan

/-- IEEE addition (exact on finite values). -/
def add : D → D → D
  | nan, _ => nan
  | _, nan => nan
  | fin a, fin b => fin (a + b)
  | pinf, ninf => nan
  | ninf, pinf => nan
  | pinf, _ => pinf
  | ninf, _ => ninf
  | fin _, pinf => pinf
  | fin _, ninf => ninf

/-- IEEE subtraction. -/
def sub (a b : D) : D := add a (neg b)

/-- IEEE multiplication (exact on finite values); `±∞ × 0 = NaN`. -/
def mul : D → D → D
  | nan, _ => nan
  | _, nan => nan
  | fin a, fin b => fin (a * b)
  | fin a, pinf => if 0 < a then pinf else if a < 0 then ninf else nan
  | fin a, ninf => if 0 < a then ninf else if a < 0 then pinf else nan
  | pinf, fin b => if 0 < b then pinf else if b < 0 then ninf else nan
  | ninf, fin b => if 0 < b then ninf else if b < 0 then pinf else nan
  | pinf, pinf => pinf
  | pinf, ninf => ninf
  | ninf, pinf => ninf
  | ninf, ninf => pinf

/-- IEEE division (exact on finite values); `x/0` is `±∞` for `x ≠ 0` and
NaN for `x = 0`.  Signed zeros are not modelled (division by a zero uses the
sign of `+0`). -/
def div : D → D → D
  | nan, _ => nan
  | _, nan => nan
  | fin a, fin b =>
      if b = 0 then (if a = 0 then nan else if 0 < a then pinf else ninf)
      else fin (a / b)
  | fin _, pinf => fin 0
  | fin _, ninf => fin 0
  | pinf, fin b => if 0 ≤ b then pinf else ninf
  | ninf, fin b => if 0 ≤ b then ninf else pinf
  | pinf, _ => nan
  | ninf, _ => nan

/-- IEEE strict less-than; every comparison with NaN is false. -/
def lt : D → D → Bool
  | nan, _ => false
  | _, nan => false
  | fin a, fin b => decide (a < b)
  | fin _, pinf => true
  | fin _, ninf => false
  | pinf, _ => false
  | ninf, ninf => false
  | ninf, _ => true

/-- IEEE strict greater-than. -/
def gt (a b : D) : Bool := lt b a

/-- IEEE equality; every comparison with NaN is false. -/
def beq : D → D → Bool
  | nan, _ => false
  | _, nan => false
  | fin a, fin b => decide (a = b)
  | pinf, pinf => true
  | ninf, ninf => true
  | _, _ => false

/-- IEEE absolute value (C `abs` on a double). -/
def dabs : D → D
  | fin q => fin |q|
  | pinf => pinf
  | ninf => pinf
  | nan => nan

/-- Model of the C cast `(long)x`: truncation toward zero on finite values.
The behaviour of the cast on non-finite values is undefined in C and is
modelled as 0. -/
def toLong : D → Int
  | fin q => if 0 ≤ q then Int.floor q else - Int.floor (-q)
  | _ => 0

end D

/-- 32-bit unsigned subtraction `a - b` as performed on `unsigned long`
values on the ESP8266 (millis clock arithmetic). -/
def usub32 (a b : Nat) : Nat := (a + 4294967296 - b % 4294967296) % 4294967296

/-- One observable command sent to the servo driver. -/
inductive ServoCmd where
  | attach
  | write (duty : Int)
  | detach
deriving DecidableEq

/-- Compile-time configuration constants from Config.h (not part of src). -/
structure Config where
  servoStopSignalRequired : Bool
  servoStopDutyCycle : Int
  servoResetRequired : Bool
  servoResetEverySeconds : Nat
  defaultSecondsToClose : Nat
  defaultSecondsToOpen : Nat
deriving DecidableEq

/-- `millisPerServoReset = SERVO_RESET_EVERY_SECONDS * 1000` in `unsigned int`
arithmetic (main.cpp line 30). -/
def millisPerServoReset (cfg : Config) : Nat :=
  cfg.servoResetEverySeconds * 1000 % 4294967296

/-- `(seconds * 1000) / 100` in `unsigned int` arithmetic: the calibrated
milliseconds of rotation per 1% of position change (main.cpp lines 26-27,
193-194). -/
def ratePerPercent (seconds : Nat) : Nat := seconds * 1000 % 4294967296 / 100

/-- The global mutable state of main.cpp, together with the observable
persistence (EEPROM) and actuator (servo) effects.  `eepromPosition` is the
durably stored currentPosition, `eepromCommits` counts put+commit events for
the position, `servoCmds` logs servo driver calls newest-first, and
`servoResets` counts completed watchdog refresh cycles. -/
structure St where
  secondsToClose : Nat
  secondsToOpen : Nat
  milliesPerPercentClose : Nat
  millisPerPercentOpen : Nat
  startingPosition : D
  currentPosition : D
  desiredPosition : D
  spinning : Bool
  direction : Int
  dutyCycle : Int
  previousMillis : Nat
  lastResetMillis : Nat
  interval : Int
  eepromPosition : D
  eepromCommits : Nat
  servoCmds : List ServoCmd
  servoResets : Nat
deriving DecidableEq

/-- Contents of the EEPROM at boot. -/
structure Eeprom where
  initialized : Bool
  secondsToClose : Nat
  secondsToOpen : Nat
  currentPosition : D
deriving DecidableEq

/-- The state after `setup()` (main.cpp lines 151-208): settings are loaded
from the EEPROM when it is initialized, otherwise the defaults are written
and committed once; the rates are recomputed; all other globals keep their
C initializers (lines 37-51; `direction` is zero-initialized static storage). -/
def bootState (cfg : Config) (e : Eeprom) : St :=
  { secondsToClose := if e.initialized then e.secondsToClose else cfg.defaultSecondsToClose
    secondsToOpen := if e.initialized then e.secondsToOpen else cfg.defaultSecondsToOpen
    milliesPerPercentClose :=
      ratePerPercent (if e.initialized then e.secondsToClose else cfg.defaultSecondsToClose)
    millisPerPercentOpen :=
      ratePerPercent (if e.initialized then e.secondsToOpen else cfg.defaultSecondsToOpen)
    startingPosition := D.fin 0
    currentPosition := if e.initialized then e.currentPosition else D.fin 0
    desiredPosition := D.fin 0
    spinning := false
    direction := 0
    dutyCycle := 90
    previousMillis := 0
    lastResetMillis := 0
    interval := 0
    eepromPosition := if e.initialized then e.currentPosition else D.fin 0
    eepromCommits := if e.initialized then 0 else 1
    servoCmds := [ServoCmd.detach]
    servoResets := 0 }

/-- The session-creation guard of `startSpinning` (main.cpp line 55):
`newPosition != desiredPosition || newPosition != currentPosition`, with the
IEEE `!=` (true whenever either operand is NaN). -/
def moveGuard (s : St) (newPosition : D) : Bool :=
  !D.beq newPosition s.desiredPosition || !D.beq newPosition s.currentPosition

/-- `startSpinning(newPosition)` (main.cpp lines 53-91), called with the value
`millis()` returned at line 63.  When the guard passes: detach first when
already spinning, set `desiredPosition`, select the rate and compute
`interval = (long)(abs(desiredPosition - currentPosition) * millisPerPercent)`,
issue attach + write of the duty cycle, and set the session variables. -/
def startSpinning (s : St) (newPosition : D) (currentMillis : Nat) : St :=
  if moveGuard s newPosition then
    { s with
      desiredPosition := newPosition
      interval :=
        D.toLong (D.mul (D.dabs (D.sub newPosition s.currentPosition))
          (D.fin ((if D.gt newPosition s.currentPosition then s.millisPerPercentOpen
                   else s.milliesPerPercentClose : Nat) : ℚ)))
      dutyCycle := if D.gt newPosition s.currentPosition then 0 else 180
      servoCmds :=
        ServoCmd.write (if D.gt newPosition s.currentPosition then 0 else 180) ::
          ServoCmd.attach ::
            (if s.spinning then ServoCmd.detach :: s.servoCmds else s.servoCmds)
      direction := if D.gt newPosition s.currentPosition then 1 else -1
      previousMillis := currentMillis
      lastResetMillis := currentMillis
      spinning := true
      startingPosition := s.currentPosition }
  else s

/-- `stopSpinning()` (main.cpp lines 102-114): optional stop pulse, detach,
clear `spinning`, finalize `currentPosition = desiredPosition` and write it
to the EEPROM with a commit. -/
def stopSpinning (cfg : Config) (s : St) : St :=
  { s with
    servoCmds :=
      ServoCmd.detach ::
        (if cfg.servoStopSignalRequired
         then ServoCmd.write cfg.servoStopDutyCycle :: s.servoCmds
         else s.servoCmds)
    spinning := false
    currentPosition := s.desiredPosition
    eepromPosition := s.desiredPosition
    eepromCommits := s.eepromCommits + 1 }

/-- `resetServo()` (main.cpp lines 93-100): detach, pause, re-attach, reissue
the current duty cycle.  `servoResets` counts these refresh cycles. -/
def resetServo (s : St) : St :=
  { s with
    servoCmds :=
      ServoCmd.write s.dutyCycle :: ServoCmd.attach :: ServoCmd.detach :: s.servoCmds
    servoResets := s.servoResets + 1 }

/-- `percentCompleted` of main.cpp line 215:
`((double)(currentMillis - previousMillis)) / ((double)interval)` with the
32-bit unsigned subtraction. -/
def percentCompleted (s : St) (currentMillis : Nat) : D :=
  D.div (D.fin ((usub32 currentMillis s.previousMillis : Nat) : ℚ))
    (D.fin ((s.interval : Int) : ℚ))

/-- The live position estimate of main.cpp line 216:
`(percentCompleted * (desiredPosition - startingPosition)) + startingPosition`. -/
def estimatePosition (s : St) (currentMillis : Nat) : D :=
  D.add
    (D.mul (percentCompleted s currentMillis)
      (D.sub s.desiredPosition s.startingPosition))
    s.startingPosition

/-- The completion test of main.cpp line 219:
`currentPosition == desiredPosition || percentCompleted > 1 ||
 currentPosition < 0 || currentPosition > 100` evaluated on the freshly
computed estimate. -/
def completeCond (s : St) (currentMillis : Nat) : Bool :=
  D.beq (estimatePosition s currentMillis) s.desiredPosition ||
    D.gt (percentCompleted s currentMillis) (D.fin 1) ||
      D.lt (estimatePosition s currentMillis) (D.fin 0) ||
        D.gt (estimatePosition s currentMillis) (D.fin 100)

/-- One iteration of `loop()` (main.cpp lines 210-232) at clock value
`currentMillis`: while spinning, store the live estimate into
`currentPosition`, stop when the completion test fires, then run the servo
watchdog when `SERVO_RESET_REQUIRED && spinning &&
spinningMillis >= millisPerServoReset` (note: `spinning` is re-read after a
possible stop). -/
def loop (cfg : Config) (s : St) (currentMillis : Nat) : St :=
  if s.spinning then
    let s1 := { s with currentPosition := estimatePosition s currentMillis }
    let s2 := if completeCond s currentMillis then stopSpinning cfg s1 else s1
    if cfg.servoResetRequired && s2.spinning &&
        decide (millisPerServoReset cfg ≤ usub32 currentMillis s.lastResetMillis) then
      { resetServo s2 with lastResetMillis := currentMillis }
    else s2
  else s

/-- The `/state` endpoint value (main.cpp line 138):
`spinning ? (direction == -1 ? 0 : 1) : 2`. -/
def stateCode (s : St) : Nat :=
  if s.spinning then (if s.direction = -1 then 0 else 1) else 2

/-- Boolean range check `0 ≤ x ≤ 100` on a double value (false on NaN and
the infinities). -/
def inRange (d : D) : Bool :=
  match d with
  | D.fin q => decide (0 ≤ q ∧ q ≤ 100)
  | _ => false

/-- States reachable from a boot whose restored position is in range, under
requests whose targets are finite values in [0,100], interleaved with loop
iterations at arbitrary clock values. -/
inductive Reach (cfg : Config) : St → Prop where
  | boot (e : Eeprom) (h : inRange (bootState cfg e).currentPosition = true) :
      Reach cfg (bootState cfg e)
  | move (s : St) (q : ℚ) (m : Nat) (hs : Reach cfg s)
      (h0 : 0 ≤ q) (h1 : q ≤ 100) : Reach cfg (startSpinning s (D.fin q) m)
  | tick (s : St) (now : Nat) (hs : Reach cfg s) : Reach cfg (loop cfg s now)

/-! Concrete configurations and traces used to evaluate the model on the
scenarios of the design document. -/

/-- A configuration with 10 s travel time each way (rate 100 ms per percent)
and a 10 s watchdog period. -/
def cfgA : Config := ⟨false, 90, true, 10, 10, 10⟩

/-- The same configuration with a 2 s watchdog period. -/
def cfgB : Config := ⟨false, 90, true, 2, 10, 10⟩

/-- An initialized EEPROM storing position 0 and 10 s travel times. -/
def eeA : Eeprom := ⟨true, 10, 10, D.fin 0⟩

/-- An initialized EEPROM storing position 37. -/
def eeB : Eeprom := ⟨true, 10, 10, D.fin 37⟩

/-- Boot at position 0, then request a move to 50 at time 0: a 5000 ms
session from 0 toward 50. -/
def sessA : St := startSpinning (bootState cfgA eeA) (D.fin 50) 0

/-- Retarget the `sessA` session to position 0 (the still-current position)
at time 0: the guard passes because 0 differs from the desired position 50,
and the new interval is 0. -/
def sessZero : St := startSpinning sessA (D.fin 0) 0

/-- Boot at position 0, then request a move to 100 at time 0: a 10000 ms
session from 0 toward 100. -/
def sessFull : St := startSpinning (bootState cfgA eeA) (D.fin 100) 0

/-- The 0 → 100 session under the 2 s watchdog configuration. -/
def sessFullB : St := startSpinning (bootState cfgB eeA) (D.fin 100) 0

/-! Helper lemmas about the individual operations. -/

theorem startSpinning_of_guard_false {s : St} {t : D} (m : Nat)
    (hg : moveGuard s t = false) : startSpinning s t m = s := by
  unfold startSpinning
  rw [hg]
  rfl

theorem startSpinning_spinning {s : St} {t : D} (m : Nat)
    (hg : moveGuard s t = true) : (startSpinning s t m).spinning = true := by
  unfold startSpinning
  rw [hg]
  rfl

theorem startSpinning_desiredPosition {s : St} {t : D} (m : Nat)
    (hg : moveGuard s t = true) : (startSpinning s t m).desiredPosition = t := by
  unfold startSpinning
  rw [hg]
  rfl

theorem startSpinning_startingPosition {s : St} {t : D} (m : Nat)
    (hg : moveGuard s t = true) :
    (startSpinning s t m).startingPosition = s.currentPosition := by
  unfold startSpinning
  rw [hg]
  rfl

theorem startSpinning_currentPosition (s : St) (t : D) (m : Nat) :
    (startSpinning s t m).currentPosition = s.currentPosition := by
  unfold startSpinning
  split <;> rfl

theorem startSpinning_previousMillis {s : St} {t : D} (m : Nat)
    (hg : moveGuard s t = true) : (startSpinning s t m).previousMillis = m := by
  unfold startSpinning
  rw [hg]
  rfl

theorem startSpinning_lastResetMillis {s : St} {t : D} (m : Nat)
    (hg : moveGuard s t = true) : (startSpinning s t m).lastResetMillis = m := by
  unfold startSpinning
  rw [hg]
  rfl

theorem startSpinning_interval {s : St} {t : D} (m : Nat)
    (hg : moveGuard s t = true) :
    (startSpinning s t m).interval =
      D.toLong (D.mul (D.dabs (D.sub t s.currentPosition))
        (D.fin ((if D.gt t s.currentPosition then s.millisPerPercentOpen
                 else s.milliesPerPercentClose : Nat) : ℚ))) := by
  unfold startSpinning
  rw [hg]
  rfl

theorem startSpinning_direction {s : St} {t : D} (m : Nat)
    (hg : moveGuard s t = true) :
    (startSpinning s t m).direction =
      (if D.gt t s.currentPosition then 1 else -1) := by
  unfold startSpinning
  rw [hg]
  rfl

theorem startSpinning_eepromPosition (s : St) (t : D) (m : Nat) :
    (startSpinning s t m).eepromPosition = s.eepromPosition := by
  unfold startSpinning
  split <;> rfl

theorem startSpinning_eepromCommits (s : St) (t : D) (m : Nat) :
    (startSpinning s t m).eepromCommits = s.eepromCommits := by
  unfold startSpinning
  split <;> rfl

theorem loop_not_spinning (cfg : Config) {s : St} (now : Nat)
    (h : s.spinning = false) : loop cfg s now = s := by
  unfold loop
  rw [h]
  rfl

theorem loop_eq_stop (cfg : Config) {s : St} {now : Nat}
    (hspin : s.spinning = true) (hc : completeCond s now = true) :
    loop cfg s now =
      stopSpinning cfg { s with currentPosition := estimatePosition s now } := by
  unfold loop
  rw [hspin, hc]
  simp [stopSpinning]

theorem loop_eq_estimate (cfg : Config) {s : St} {now : Nat}
    (hspin : s.spinning = true) (hc : completeCond s now = false)
    (hw : (cfg.servoResetRequired &&
      decide (millisPerServoReset cfg ≤ usub32 now s.lastResetMillis)) = false) :
    loop cfg s now = { s with currentPosition := estimatePosition s now } := by
  simp [loop, hspin, hc, hw]

theorem loop_eq_reset (cfg : Config) {s : St} {now : Nat}
    (hspin : s.spinning = true) (hc : completeCond s now = false)
    (hw : (cfg.servoResetRequired &&
      decide (millisPerServoReset cfg ≤ usub32 now s.lastResetMillis)) = true) :
    loop cfg s now =
      { resetServo { s with currentPosition := estimatePosition s now } with
          lastResetMillis := now } := by
  simp [loop, hspin, hc, hw]

theorem stopSpinning_spinning (cfg : Config) (s : St) :
    (stopSpinning cfg s).spinning = false := rfl

theorem loop_mid_fields (cfg : Config) {s : St} {now : Nat}
    (hspin : s.spinning = true) (hs1 : (loop cfg s now).spinning = true) :
    (loop cfg s now).currentPosition = estimatePosition s now ∧
      (loop cfg s now).millisPerPercentOpen = s.millisPerPercentOpen ∧
      (loop cfg s now).milliesPerPercentClose = s.milliesPerPercentClose ∧
      (loop cfg s now).desiredPosition = s.desiredPosition ∧
      (loop cfg s now).startingPosition = s.startingPosition := by
  by_cases hc : completeCond s now = true
  · rw [loop_eq_stop cfg hspin hc] at hs1
    exact absurd hs1 (by simp [stopSpinning])
  · have hc' : completeCond s now = false := eq_false_of_ne_true hc
    by_cases hw : (cfg.servoResetRequired &&
        decide (millisPerServoReset cfg ≤ usub32 now s.lastResetMillis)) = true
    · rw [loop_eq_reset cfg hspin hc' hw]
      exact ⟨rfl, rfl, rfl, rfl, rfl⟩
    · rw [loop_eq_estimate cfg hspin hc' (eq_false_of_ne_true hw)]
      exact ⟨rfl, rfl, rfl, rfl, rfl⟩

theorem range_or_nan_of_bounds {x : D}
    (h3 : D.lt x (D.fin 0) = false) (h4 : D.gt x (D.fin 100) = false) :
    inRange x = true ∨ x = D.nan := by
  cases x with
  | fin q =>
    simp only [D.lt, D.gt, decide_eq_false_iff_not, not_lt] at h3 h4
    exact Or.inl (by simp [inRange, h3, h4])
  | pinf => exact absurd h4 (by simp [D.gt, D.lt])
  | ninf => exact absurd h3 (by simp [D.lt])
  | nan => exact Or.inr rfl

theorem range_or_nan_of_not_complete {s : St} {now : Nat}
    (h : completeCond s now = false) :
    inRange (estimatePosition s now) = true ∨ estimatePosition s now = D.nan := by
  unfold completeCond at h
  simp only [Bool.or_eq_false_iff] at h
  exact range_or_nan_of_bounds h.1.2 h.2

/-! Theorems settling the claims. -/

/-- C2 counterexample: booting at position 0 and requesting a move to 50
creates a session; retargeting to the still-current position 0 then creates a
second session (the guard passes because 0 differs from the desired position
50) whose interval is 0 and whose desired and starting positions coincide, so
the division in the loop estimate is a division by zero. -/
theorem zero_interval_session_created :
    sessZero.spinning = true ∧ sessZero.interval = 0 ∧
      sessZero.desiredPosition = sessZero.startingPosition := by norm_num [loop, startSpinning, stopSpinning, resetServo, bootState, moveGuard, completeCond, estimatePosition, percentCompleted, usub32, millisPerServoReset, ratePerPercent, stateCode, inRange, sessA, sessZero, sessFull, sessFullB, cfgA, cfgB, eeA, eeB, D.beq, D.lt, D.gt, D.add, D.sub, D.neg, D.mul, D.div, D.dabs, D.toLong]

/-- C2 amended: a session is skipped only when the target equals both
`desiredPosition` and `currentPosition`; requesting the current (finite)
position while it differs from the desired position does create a session,
and that session has interval 0. -/
theorem startSpinning_zero_interval (s : St) (c : ℚ) (m : Nat)
    (hc : s.currentPosition = D.fin c)
    (hne : D.beq (D.fin c) s.desiredPosition = false) :
    (startSpinning s (D.fin c) m).spinning = true ∧
      (startSpinning s (D.fin c) m).interval = 0 := by
  have hg : moveGuard s (D.fin c) = true := by
    simp [moveGuard, hne]
  refine ⟨startSpinning_spinning m hg, ?_⟩
  rw [startSpinning_interval m hg, hc]
  simp [D.sub, D.neg, D.add, D.dabs, D.mul, D.toLong]

/-- Witness for the C2 amended theorem: in the concrete trace, retargeting the
0 → 50 session to position 0 creates a session with interval 0. -/
theorem startSpinning_zero_interval_witness :
    (startSpinning sessA (D.fin 0) 0).spinning = true ∧
      (startSpinning sessA (D.fin 0) 0).interval = 0 :=
  startSpinning_zero_interval sessA 0 0 (by norm_num [loop, startSpinning, stopSpinning, resetServo, bootState, moveGuard, completeCond, estimatePosition, percentCompleted, usub32, millisPerServoReset, ratePerPercent, stateCode, inRange, sessA, sessZero, sessFull, sessFullB, cfgA, cfgB, eeA, eeB, D.beq, D.lt, D.gt, D.add, D.sub, D.neg, D.mul, D.div, D.dabs, D.toLong])
    (by norm_num [loop, startSpinning, stopSpinning, resetServo, bootState, moveGuard, completeCond, estimatePosition, percentCompleted, usub32, millisPerServoReset, ratePerPercent, stateCode, inRange, sessA, sessZero, sessFull, sessFullB, cfgA, cfgB, eeA, eeB, D.beq, D.lt, D.gt, D.add, D.sub, D.neg, D.mul, D.div, D.dabs, D.toLong])

/-- C3 counterexample: after a boot that restores position 37 from the EEPROM,
the controller is Idle at currentPosition 37 but desiredPosition is still its
C initializer 0, so requestMove(37) creates a session (with interval 0) and
issues actuator commands — the idempotence claim fails in the boot state. -/
theorem boot_idempotence_fails :
    (bootState cfgA eeB).spinning = false ∧
      (bootState cfgA eeB).currentPosition = D.fin 37 ∧
      (startSpinning (bootState cfgA eeB) (D.fin 37) 0).spinning = true ∧
      (startSpinning (bootState cfgA eeB) (D.fin 37) 0).servoCmds ≠
        (bootState cfgA eeB).servoCmds := by
  norm_num [loop, startSpinning, stopSpinning, resetServo, bootState, moveGuard, completeCond, estimatePosition, percentCompleted, usub32, millisPerServoReset, ratePerPercent, stateCode, inRange, sessA, sessZero, sessFull, sessFullB, cfgA, cfgB, eeA, eeB, D.beq, D.lt, D.gt, D.add, D.sub, D.neg, D.mul, D.div, D.dabs, D.toLong]
  simp

/-- C3 amended: requestMove(p) in an Idle state with currentPosition = p is a
no-op (no state change and no actuator command) provided desiredPosition = p
as well; this holds in every Idle state reached through a stop (stop sets
currentPosition = desiredPosition) but not necessarily at boot. -/
theorem requestMove_idempotent (s : St) (p : D) (m : Nat)
    (_hidle : s.spinning = false)
    (hdes : D.beq p s.desiredPosition = true)
    (hcur : D.beq p s.currentPosition = true) :
    startSpinning s p m = s := by
  apply startSpinning_of_guard_false
  simp [moveGuard, hdes, hcur]

/-- Witness for the C3 amended theorem: requesting position 0 in the freshly
booted Idle state at position 0 changes nothing. -/
theorem requestMove_idempotent_witness :
    startSpinning (bootState cfgA eeA) (D.fin 0) 5 = bootState cfgA eeA :=
  requestMove_idempotent (bootState cfgA eeA) (D.fin 0) 5
    (by norm_num [loop, startSpinning, stopSpinning, resetServo, bootState, moveGuard, completeCond, estimatePosition, percentCompleted, usub32, millisPerServoReset, ratePerPercent, stateCode, inRange, sessA, sessZero, sessFull, sessFullB, cfgA, cfgB, eeA, eeB, D.beq, D.lt, D.gt, D.add, D.sub, D.neg, D.mul, D.div, D.dabs, D.toLong])
    (by norm_num [loop, startSpinning, stopSpinning, resetServo, bootState, moveGuard, completeCond, estimatePosition, percentCompleted, usub32, millisPerServoReset, ratePerPercent, stateCode, inRange, sessA, sessZero, sessFull, sessFullB, cfgA, cfgB, eeA, eeB, D.beq, D.lt, D.gt, D.add, D.sub, D.neg, D.mul, D.div, D.dabs, D.toLong])
    (by norm_num [loop, startSpinning, stopSpinning, resetServo, bootState, moveGuard, completeCond, estimatePosition, percentCompleted, usub32, millisPerServoReset, ratePerPercent, stateCode, inRange, sessA, sessZero, sessFull, sessFullB, cfgA, cfgB, eeA, eeB, D.beq, D.lt, D.gt, D.add, D.sub, D.neg, D.mul, D.div, D.dabs, D.toLong])

/-- C5 (confirmed): when startSpinning creates a session, the rate used for
intervalMs is millisPerPercentOpen exactly when the target is greater than
the live position (and milliesPerPercentClose otherwise), the direction flag
is then 1 (else -1), and the /state endpoint reports code 1 (else 0) for the
session; i.e. the msPerPercentOpening rate is paired exactly with the
direction reported as Opening (state code 1) by the command interface. -/
theorem direction_rate_selection (s : St) (t : D) (m : Nat)
    (hg : moveGuard s t = true) :
    (startSpinning s t m).direction = (if D.gt t s.currentPosition then 1 else -1) ∧
      (startSpinning s t m).interval =
        D.toLong (D.mul (D.dabs (D.sub t s.currentPosition))
          (D.fin ((if D.gt t s.currentPosition then s.millisPerPercentOpen
                   else s.milliesPerPercentClose : Nat) : ℚ))) ∧
      stateCode (startSpinning s t m) = (if D.gt t s.currentPosition then 1 else 0) := by
  refine ⟨startSpinning_direction m hg, startSpinning_interval m hg, ?_⟩
  unfold stateCode
  rw [startSpinning_spinning m hg, startSpinning_direction m hg]
  by_cases h : D.gt t s.currentPosition = true
  · simp [h]
  · simp [eq_false_of_ne_true h]

/-- Witness for C5: the 0 → 100 request from the booted state selects the
open rate, direction flag 1 and state code 1. -/
theorem direction_rate_selection_witness :
    (startSpinning (bootState cfgA eeA) (D.fin 100) 0).direction =
        (if D.gt (D.fin 100) (bootState cfgA eeA).currentPosition then 1 else -1) ∧
      (startSpinning (bootState cfgA eeA) (D.fin 100) 0).interval =
        D.toLong (D.mul (D.dabs (D.sub (D.fin 100) (bootState cfgA eeA).currentPosition))
          (D.fin ((if D.gt (D.fin 100) (bootState cfgA eeA).currentPosition
                   then (bootState cfgA eeA).millisPerPercentOpen
                   else (bootState cfgA eeA).milliesPerPercentClose : Nat) : ℚ))) ∧
      stateCode (startSpinning (bootState cfgA eeA) (D.fin 100) 0) =
        (if D.gt (D.fin 100) (bootState cfgA eeA).currentPosition then 1 else 0) :=
  direction_rate_selection (bootState cfgA eeA) (D.fin 100) 0
    (by norm_num [loop, startSpinning, stopSpinning, resetServo, bootState, moveGuard, completeCond, estimatePosition, percentCompleted, usub32, millisPerServoReset, ratePerPercent, stateCode, inRange, sessA, sessZero, sessFull, sessFullB, cfgA, cfgB, eeA, eeB, D.beq, D.lt, D.gt, D.add, D.sub, D.neg, D.mul, D.div, D.dabs, D.toLong])

/-- C6 (confirmed): while spinning, a loop iteration stops (leaves the
Spinning state) exactly when the fresh estimate equals desiredPosition, or
the elapsed fraction exceeds 1, or the estimate lies below 0 or above 100. -/
theorem tick_complete_iff (cfg : Config) (s : St) (now : Nat)
    (hspin : s.spinning = true) :
    ((loop cfg s now).spinning = false ↔
      (D.beq (estimatePosition s now) s.desiredPosition = true ∨
        D.gt (percentCompleted s now) (D.fin 1) = true ∨
        D.lt (estimatePosition s now) (D.fin 0) = true ∨
        D.gt (estimatePosition s now) (D.fin 100) = true)) := by
  constructor
  · intro h
    by_cases hc : completeCond s now = true
    · have hc2 := hc
      unfold completeCond at hc2
      simp only [Bool.or_eq_true] at hc2
      tauto
    · exfalso
      have hc2 := eq_false_of_ne_true hc
      by_cases hw : (cfg.servoResetRequired &&
          decide (millisPerServoReset cfg ≤ usub32 now s.lastResetMillis)) = true
      · rw [loop_eq_reset cfg hspin hc2 hw] at h
        have h2 : s.spinning = false := h
        rw [hspin] at h2
        exact Bool.noConfusion h2
      · rw [loop_eq_estimate cfg hspin hc2 (eq_false_of_ne_true hw)] at h
        have h2 : s.spinning = false := h
        rw [hspin] at h2
        exact Bool.noConfusion h2
  · intro h
    have hc : completeCond s now = true := by
      unfold completeCond
      simp only [Bool.or_eq_true]
      tauto
    rw [loop_eq_stop cfg hspin hc]
    rfl

/-- Witness for C6: instantiated at the 0 → 50 session ticked at 5000 ms. -/
theorem tick_complete_iff_witness :
    ((loop cfgA sessA 5000).spinning = false ↔
      (D.beq (estimatePosition sessA 5000) sessA.desiredPosition = true ∨
        D.gt (percentCompleted sessA 5000) (D.fin 1) = true ∨
        D.lt (estimatePosition sessA 5000) (D.fin 0) = true ∨
        D.gt (estimatePosition sessA 5000) (D.fin 100) = true)) :=
  tick_complete_iff cfgA sessA 5000
    (by norm_num [loop, startSpinning, stopSpinning, resetServo, bootState, moveGuard, completeCond, estimatePosition, percentCompleted, usub32, millisPerServoReset, ratePerPercent, stateCode, inRange, sessA, sessZero, sessFull, sessFullB, cfgA, cfgB, eeA, eeB, D.beq, D.lt, D.gt, D.add, D.sub, D.neg, D.mul, D.div, D.dabs, D.toLong])

/-- C7 (confirmed): startSpinning never touches the durable position; a loop
iteration that does not change the Spinning flag leaves the durable store
untouched; a loop iteration that stops the session performs exactly one
put+commit, storing the session final position (desiredPosition, which is
also the resulting currentPosition); and boot commits exactly once on first
boot and never otherwise. -/
theorem persistence_once_per_session (cfg : Config) (s : St) (t : D)
    (m now : Nat) (e : Eeprom) :
    ((startSpinning s t m).eepromPosition = s.eepromPosition ∧
      (startSpinning s t m).eepromCommits = s.eepromCommits) ∧
    ((loop cfg s now).spinning = s.spinning →
      (loop cfg s now).eepromPosition = s.eepromPosition ∧
        (loop cfg s now).eepromCommits = s.eepromCommits) ∧
    (s.spinning = true → (loop cfg s now).spinning = false →
      (loop cfg s now).eepromCommits = s.eepromCommits + 1 ∧
        (loop cfg s now).eepromPosition = s.desiredPosition ∧
        (loop cfg s now).eepromPosition = (loop cfg s now).currentPosition) ∧
    (bootState cfg e).eepromCommits = (if e.initialized then 0 else 1) := by
  refine ⟨⟨startSpinning_eepromPosition s t m, startSpinning_eepromCommits s t m⟩,
    ?_, ?_, rfl⟩
  · intro h
    by_cases hspin : s.spinning = true
    · by_cases hc : completeCond s now = true
      · rw [loop_eq_stop cfg hspin hc] at h
        have h2 : (false : Bool) = s.spinning := h
        rw [hspin] at h2
        exact Bool.noConfusion h2
      · have hc2 := eq_false_of_ne_true hc
        by_cases hw : (cfg.servoResetRequired &&
            decide (millisPerServoReset cfg ≤ usub32 now s.lastResetMillis)) = true
        · rw [loop_eq_reset cfg hspin hc2 hw]
          exact ⟨rfl, rfl⟩
        · rw [loop_eq_estimate cfg hspin hc2 (eq_false_of_ne_true hw)]
          exact ⟨rfl, rfl⟩
    · rw [loop_not_spinning cfg now (eq_false_of_ne_true hspin)]
      exact ⟨rfl, rfl⟩
  · intro hspin hstop
    by_cases hc : completeCond s now = true
    · rw [loop_eq_stop cfg hspin hc]
      exact ⟨rfl, rfl, rfl⟩
    · exfalso
      have hc2 := eq_false_of_ne_true hc
      by_cases hw : (cfg.servoResetRequired &&
          decide (millisPerServoReset cfg ≤ usub32 now s.lastResetMillis)) = true
      · rw [loop_eq_reset cfg hspin hc2 hw] at hstop
        have h2 : s.spinning = false := hstop
        rw [hspin] at h2
        exact Bool.noConfusion h2
      · rw [loop_eq_estimate cfg hspin hc2 (eq_false_of_ne_true hw)] at hstop
        have h2 : s.spinning = false := hstop
        rw [hspin] at h2
        exact Bool.noConfusion h2

/-- Witness for C7: instantiated at the 0 → 50 session ticked at 5000 ms
(which stops and persists) with the initialized EEPROM. -/
theorem persistence_once_per_session_witness :
    ((startSpinning sessA (D.fin 0) 0).eepromPosition = sessA.eepromPosition ∧
      (startSpinning sessA (D.fin 0) 0).eepromCommits = sessA.eepromCommits) ∧
    ((loop cfgA sessA 5000).spinning = sessA.spinning →
      (loop cfgA sessA 5000).eepromPosition = sessA.eepromPosition ∧
        (loop cfgA sessA 5000).eepromCommits = sessA.eepromCommits) ∧
    (sessA.spinning = true → (loop cfgA sessA 5000).spinning = false →
      (loop cfgA sessA 5000).eepromCommits = sessA.eepromCommits + 1 ∧
        (loop cfgA sessA 5000).eepromPosition = sessA.desiredPosition ∧
        (loop cfgA sessA 5000).eepromPosition = (loop cfgA sessA 5000).currentPosition) ∧
    (bootState cfgA eeA).eepromCommits = (if eeA.initialized then 0 else 1) :=
  persistence_once_per_session cfgA sessA (D.fin 0) 0 5000 eeA

/-- C9 (confirmed): with the watchdog enabled (SERVO_RESET_REQUIRED), a loop
iteration performs a servo refresh if and only if the controller was
Spinning and is still Spinning after the completion check (so never while
Idle, including the tick in which a stop was just triggered) and at least
millisPerServoReset ms have elapsed since lastResetMillis (32-bit clock
difference); every refresh advances lastResetMillis to the current time, so
the refresh fires once per watchdog period of spin time. -/
theorem watchdog_scoping (cfg : Config) (s : St) (now : Nat)
    (hreq : cfg.servoResetRequired = true) :
    ((loop cfg s now).servoResets = s.servoResets + 1 ↔
      (s.spinning = true ∧ (loop cfg s now).spinning = true ∧
        millisPerServoReset cfg ≤ usub32 now s.lastResetMillis)) ∧
    ((loop cfg s now).servoResets = s.servoResets + 1 →
      (loop cfg s now).lastResetMillis = now) ∧
    (s.spinning = false → loop cfg s now = s) := by
  by_cases hspin : s.spinning = true
  · by_cases hc : completeCond s now = true
    · rw [loop_eq_stop cfg hspin hc]
      refine ⟨⟨?_, ?_⟩, ?_, ?_⟩
      · intro h
        have h2 : s.servoResets = s.servoResets + 1 := h
        exact absurd h2 (by omega)
      · rintro ⟨-, h2, -⟩
        have h3 : (false : Bool) = true := h2
        exact Bool.noConfusion h3
      · intro h
        have h2 : s.servoResets = s.servoResets + 1 := h
        exact absurd h2 (by omega)
      · intro h
        rw [h] at hspin
        exact Bool.noConfusion hspin
    · have hc2 := eq_false_of_ne_true hc
      by_cases hle : millisPerServoReset cfg ≤ usub32 now s.lastResetMillis
      · have hw : (cfg.servoResetRequired &&
            decide (millisPerServoReset cfg ≤ usub32 now s.lastResetMillis)) = true := by
          rw [hreq]
          simp [hle]
        rw [loop_eq_reset cfg hspin hc2 hw]
        refine ⟨⟨?_, ?_⟩, ?_, ?_⟩
        · intro _
          exact ⟨hspin, hspin, hle⟩
        · intro _
          rfl
        · intro _
          rfl
        · intro h
          rw [h] at hspin
          exact Bool.noConfusion hspin
      · have hw : (cfg.servoResetRequired &&
            decide (millisPerServoReset cfg ≤ usub32 now s.lastResetMillis)) = false := by
          rw [hreq]
          simp [hle]
        rw [loop_eq_estimate cfg hspin hc2 hw]
        refine ⟨⟨?_, ?_⟩, ?_, ?_⟩
        · intro h
          have h2 : s.servoResets = s.servoResets + 1 := h
          exact absurd h2 (by omega)
        · rintro ⟨-, -, h3⟩
          exact absurd h3 hle
        · intro h
          have h2 : s.servoResets = s.servoResets + 1 := h
          exact absurd h2 (by omega)
        · intro h
          rw [h] at hspin
          exact Bool.noConfusion hspin
  · have hspin2 := eq_false_of_ne_true hspin
    rw [loop_not_spinning cfg now hspin2]
    refine ⟨⟨?_, ?_⟩, ?_, fun _ => rfl⟩
    · intro h
      exact absurd h (by omega)
    · rintro ⟨h1, -, -⟩
      rw [h1] at hspin2
      exact Bool.noConfusion hspin2
    · intro h
      exact absurd h (by omega)

/-- Witness for C9: instantiated at the 0 → 100 session under the 2 s
watchdog configuration, ticked at 2000 ms (a refresh fires there). -/
theorem watchdog_scoping_witness :
    ((loop cfgB sessFullB 2000).servoResets = sessFullB.servoResets + 1 ↔
      (sessFullB.spinning = true ∧ (loop cfgB sessFullB 2000).spinning = true ∧
        millisPerServoReset cfgB ≤ usub32 2000 sessFullB.lastResetMillis)) ∧
    ((loop cfgB sessFullB 2000).servoResets = sessFullB.servoResets + 1 →
      (loop cfgB sessFullB 2000).lastResetMillis = 2000) ∧
    (sessFullB.spinning = false → loop cfgB sessFullB 2000 = sessFullB) :=
  watchdog_scoping cfgB sessFullB 2000 (by norm_num [cfgB])

/-- C10 (confirmed): elapsed times in the loop are computed by 32-bit
unsigned subtraction, so for a session variable stored at true time a
(clock value a % 2^32) and a tick b < 2^32 milliseconds later (clock value
(a + b) % 2^32) the computed elapsed time is exactly b, both in the position
estimate (percentCompleted) and in the watchdog schedule — the estimation
stays correct across a millis() wraparound. -/
theorem elapsed_wraparound (s : St) (a b : Nat) (hb : b < 4294967296) :
    usub32 ((a + b) % 4294967296) (a % 4294967296) = b ∧
      (s.previousMillis = a % 4294967296 →
        percentCompleted s ((a + b) % 4294967296) =
          D.div (D.fin (b : ℚ)) (D.fin ((s.interval : Int) : ℚ))) ∧
      (s.lastResetMillis = a % 4294967296 →
        usub32 ((a + b) % 4294967296) s.lastResetMillis = b) := by
  have key : usub32 ((a + b) % 4294967296) (a % 4294967296) = b := by
    unfold usub32
    omega
  refine ⟨key, ?_, ?_⟩
  · intro h
    unfold percentCompleted
    rw [h, key]
  · intro h
    rw [h, key]

/-- Witness for C10: a tick 1000 ms after a session stored at clock value
4294967290, across the 2^32 wraparound. -/
theorem elapsed_wraparound_witness :
    usub32 ((4294967290 + 1000) % 4294967296) (4294967290 % 4294967296) = 1000 ∧
      (sessA.previousMillis = 4294967290 % 4294967296 →
        percentCompleted sessA ((4294967290 + 1000) % 4294967296) =
          D.div (D.fin (1000 : ℚ)) (D.fin ((sessA.interval : Int) : ℚ))) ∧
      (sessA.lastResetMillis = 4294967290 % 4294967296 →
        usub32 ((4294967290 + 1000) % 4294967296) sessA.lastResetMillis = 1000) :=
  elapsed_wraparound sessA 4294967290 1000 (by norm_num)

/-- C4 (confirmed): a requestMove issued right after a tick, while the
session is still spinning, uses the live estimate (the currentPosition value
the tick just wrote) as the new session startingPosition — not the previous
session's startingPosition or desiredPosition — and recomputes the interval
as the truncation of |newTarget - liveEstimate| times the selected rate. -/
theorem retarget_uses_live_estimate (cfg : Config) (s : St) (t : D) (now : Nat)
    (hspin : s.spinning = true)
    (hs1 : (loop cfg s now).spinning = true)
    (hg : moveGuard (loop cfg s now) t = true) :
    (startSpinning (loop cfg s now) t now).startingPosition = estimatePosition s now ∧
      (startSpinning (loop cfg s now) t now).interval =
        D.toLong (D.mul (D.dabs (D.sub t (estimatePosition s now)))
          (D.fin ((if D.gt t (estimatePosition s now) then s.millisPerPercentOpen
                   else s.milliesPerPercentClose : Nat) : ℚ))) := by
  obtain ⟨h1, h2, h3, -, -⟩ := loop_mid_fields cfg hspin hs1
  refine ⟨?_, ?_⟩
  · rw [startSpinning_startingPosition now hg, h1]
  · rw [startSpinning_interval now hg, h1, h2, h3]

/-- Witness for C4: the 0 → 100 session (rate 100 ms/percent) ticked at
2000 ms has live estimate 20; retargeting to 30 there gives startingPosition
20 and interval |30 - 20| * 100 = 1000. -/
theorem retarget_uses_live_estimate_witness :
    ((startSpinning (loop cfgA sessFull 2000) (D.fin 30) 2000).startingPosition =
        estimatePosition sessFull 2000 ∧
      (startSpinning (loop cfgA sessFull 2000) (D.fin 30) 2000).interval =
        D.toLong (D.mul (D.dabs (D.sub (D.fin 30) (estimatePosition sessFull 2000)))
          (D.fin ((if D.gt (D.fin 30) (estimatePosition sessFull 2000)
                   then sessFull.millisPerPercentOpen
                   else sessFull.milliesPerPercentClose : Nat) : ℚ)))) ∧
      estimatePosition sessFull 2000 = D.fin 20 ∧
      (startSpinning (loop cfgA sessFull 2000) (D.fin 30) 2000).interval = 1000 :=
  ⟨retarget_uses_live_estimate cfgA sessFull (D.fin 30) 2000
      (by norm_num [loop, startSpinning, stopSpinning, resetServo, bootState, moveGuard, completeCond, estimatePosition, percentCompleted, usub32, millisPerServoReset, ratePerPercent, stateCode, inRange, sessA, sessZero, sessFull, sessFullB, cfgA, cfgB, eeA, eeB, D.beq, D.lt, D.gt, D.add, D.sub, D.neg, D.mul, D.div, D.dabs, D.toLong])
      (by norm_num [loop, startSpinning, stopSpinning, resetServo, bootState, moveGuard, completeCond, estimatePosition, percentCompleted, usub32, millisPerServoReset, ratePerPercent, stateCode, inRange, sessA, sessZero, sessFull, sessFullB, cfgA, cfgB, eeA, eeB, D.beq, D.lt, D.gt, D.add, D.sub, D.neg, D.mul, D.div, D.dabs, D.toLong])
      (by norm_num [loop, startSpinning, stopSpinning, resetServo, bootState, moveGuard, completeCond, estimatePosition, percentCompleted, usub32, millisPerServoReset, ratePerPercent, stateCode, inRange, sessA, sessZero, sessFull, sessFullB, cfgA, cfgB, eeA, eeB, D.beq, D.lt, D.gt, D.add, D.sub, D.neg, D.mul, D.div, D.dabs, D.toLong]),
    by norm_num [loop, startSpinning, stopSpinning, resetServo, bootState, moveGuard, completeCond, estimatePosition, percentCompleted, usub32, millisPerServoReset, ratePerPercent, stateCode, inRange, sessA, sessZero, sessFull, sessFullB, cfgA, cfgB, eeA, eeB, D.beq, D.lt, D.gt, D.add, D.sub, D.neg, D.mul, D.div, D.dabs, D.toLong],
    by norm_num [loop, startSpinning, stopSpinning, resetServo, bootState, moveGuard, completeCond, estimatePosition, percentCompleted, usub32, millisPerServoReset, ratePerPercent, stateCode, inRange, sessA, sessZero, sessFull, sessFullB, cfgA, cfgB, eeA, eeB, D.beq, D.lt, D.gt, D.add, D.sub, D.neg, D.mul, D.div, D.dabs, D.toLong]⟩

/-- C1 counterexample: the session sessZero is started via requestMove(0)
with target 0 in [0,100] and positive calibration rates (100 ms/percent),
and its interval is 0, so at the tick at time 0 the whole interval has
elapsed since startTime; yet that tick does not detect completion — the
estimate is NaN (0/0), every comparison with it is false, the controller
stays Spinning and the state endpoint does not report Idle. -/
theorem convergence_fails_on_zero_interval :
    sessZero.spinning = true ∧ sessZero.interval = 0 ∧
      usub32 0 sessZero.previousMillis = 0 ∧
      (loop cfgA sessZero 0).spinning = true ∧
      stateCode (loop cfgA sessZero 0) ≠ 2 := by
  norm_num [loop, startSpinning, stopSpinning, resetServo, bootState, moveGuard, completeCond, estimatePosition, percentCompleted, usub32, millisPerServoReset, ratePerPercent, stateCode, inRange, sessA, sessZero, sessFull, sessFullB, cfgA, cfgB, eeA, eeB, D.beq, D.lt, D.gt, D.add, D.sub, D.neg, D.mul, D.div, D.dabs, D.toLong]

/-- C1 amended (the claim holds for every session whose computed intervalMs
is positive): if requestMove(t) from a finite current position creates a
session with positive interval, then any tick at least interval ms after the
session start detects completion, stops, leaves the Spinning state
(state code Idle) and both currentPosition and the persisted position equal
the target exactly. -/
theorem requestMove_convergence (cfg : Config) (s : St) (t c : ℚ) (m now : Nat)
    (hc : s.currentPosition = D.fin c)
    (hg : moveGuard s (D.fin t) = true)
    (hpos : 0 < (startSpinning s (D.fin t) m).interval)
    (helap : (startSpinning s (D.fin t) m).interval ≤ (usub32 now m : Int)) :
    (loop cfg (startSpinning s (D.fin t) m) now).spinning = false ∧
      (loop cfg (startSpinning s (D.fin t) m) now).currentPosition = D.fin t ∧
      (loop cfg (startSpinning s (D.fin t) m) now).eepromPosition = D.fin t ∧
      stateCode (loop cfg (startSpinning s (D.fin t) m) now) = 2 := by
  set s2 := startSpinning s (D.fin t) m with hs2
  have hspin : s2.spinning = true := startSpinning_spinning m hg
  have hdes : s2.desiredPosition = D.fin t := startSpinning_desiredPosition m hg
  have hstart : s2.startingPosition = D.fin c := by
    rw [hs2, startSpinning_startingPosition m hg, hc]
  have hprev : s2.previousMillis = m := startSpinning_previousMillis m hg
  set e : Nat := usub32 now m with he
  set i : Int := s2.interval with hi
  have hiQpos : (0 : ℚ) < (i : ℚ) := by exact_mod_cast hpos
  have hi0 : ((i : Int) : ℚ) ≠ 0 := hiQpos.ne'
  have heQ : (i : ℚ) ≤ (e : ℚ) := by exact_mod_cast helap
  have hpc : percentCompleted s2 now = D.fin ((e : ℚ) / (i : ℚ)) := by
    unfold percentCompleted
    rw [hprev, ← he, ← hi]
    simp [D.div, hi0]
  have hest : estimatePosition s2 now =
      D.fin ((e : ℚ) / (i : ℚ) * (t - c) + c) := by
    unfold estimatePosition
    rw [hpc, hdes, hstart]
    simp only [D.sub, D.neg, D.add, D.mul]
    ring_nf
  have hone : (1 : ℚ) ≤ (e : ℚ) / (i : ℚ) := (one_le_div hiQpos).mpr heQ
  have hcomplete : completeCond s2 now = true := by
    rcases eq_or_lt_of_le hone with h1 | h1
    · unfold completeCond
      rw [hest, hdes, ← h1]
      have h2 : (1 : ℚ) * (t - c) + c = t := by ring
      rw [h2]
      simp [D.beq]
    · unfold completeCond
      rw [hpc]
      have h2 : D.gt (D.fin ((e : ℚ) / (i : ℚ))) (D.fin 1) = true := by
        simp [D.gt, D.lt, h1]
      rw [h2]
      simp
  rw [loop_eq_stop cfg hspin hcomplete]
  exact ⟨rfl, hdes, hdes, rfl⟩

/-- Witness for the C1 amended theorem: the example scenario of the design
document — requestMove(50) from position 0 at rate 100 ms/percent gives
interval 5000; the tick at 5000 ms stops, reports Idle and persists 50. -/
theorem requestMove_convergence_witness :
    (loop cfgA (startSpinning (bootState cfgA eeA) (D.fin 50) 0) 5000).spinning = false ∧
      (loop cfgA (startSpinning (bootState cfgA eeA) (D.fin 50) 0) 5000).currentPosition =
        D.fin 50 ∧
      (loop cfgA (startSpinning (bootState cfgA eeA) (D.fin 50) 0) 5000).eepromPosition =
        D.fin 50 ∧
      stateCode (loop cfgA (startSpinning (bootState cfgA eeA) (D.fin 50) 0) 5000) = 2 :=
  requestMove_convergence cfgA (bootState cfgA eeA) 50 0 0 5000
    (by norm_num [loop, startSpinning, stopSpinning, resetServo, bootState, moveGuard, completeCond, estimatePosition, percentCompleted, usub32, millisPerServoReset, ratePerPercent, stateCode, inRange, sessA, sessZero, sessFull, sessFullB, cfgA, cfgB, eeA, eeB, D.beq, D.lt, D.gt, D.add, D.sub, D.neg, D.mul, D.div, D.dabs, D.toLong])
    (by norm_num [loop, startSpinning, stopSpinning, resetServo, bootState, moveGuard, completeCond, estimatePosition, percentCompleted, usub32, millisPerServoReset, ratePerPercent, stateCode, inRange, sessA, sessZero, sessFull, sessFullB, cfgA, cfgB, eeA, eeB, D.beq, D.lt, D.gt, D.add, D.sub, D.neg, D.mul, D.div, D.dabs, D.toLong])
    (by norm_num [loop, startSpinning, stopSpinning, resetServo, bootState, moveGuard, completeCond, estimatePosition, percentCompleted, usub32, millisPerServoReset, ratePerPercent, stateCode, inRange, sessA, sessZero, sessFull, sessFullB, cfgA, cfgB, eeA, eeB, D.beq, D.lt, D.gt, D.add, D.sub, D.neg, D.mul, D.div, D.dabs, D.toLong])
    (by norm_num [loop, startSpinning, stopSpinning, resetServo, bootState, moveGuard, completeCond, estimatePosition, percentCompleted, usub32, millisPerServoReset, ratePerPercent, stateCode, inRange, sessA, sessZero, sessFull, sessFullB, cfgA, cfgB, eeA, eeB, D.beq, D.lt, D.gt, D.add, D.sub, D.neg, D.mul, D.div, D.dabs, D.toLong])

/-- C8 counterexample: with the boot position 0 and every requested target in
[0,100] (50, then 0), the tick of the resulting zero-interval session at the
same millisecond leaves the observable currentPosition equal to NaN between
ticks — a value outside [0,100]. -/
theorem range_invariant_nan_counterexample :
    (loop cfgA sessZero 0).currentPosition = D.nan ∧
      inRange (loop cfgA sessZero 0).currentPosition = false := by
  norm_num [loop, startSpinning, stopSpinning, resetServo, bootState, moveGuard, completeCond, estimatePosition, percentCompleted, usub32, millisPerServoReset, ratePerPercent, stateCode, inRange, sessA, sessZero, sessFull, sessFullB, cfgA, cfgB, eeA, eeB, D.beq, D.lt, D.gt, D.add, D.sub, D.neg, D.mul, D.div, D.dabs, D.toLong]

/-- C8 amended (corrected): in every state reachable from a boot whose
restored position is in [0,100] under finite requested targets in [0,100],
desiredPosition always lies in [0,100], and startingPosition and
currentPosition each lie in [0,100] except that they can be NaN (the
transient state of a zero-interval session ticked at its start
millisecond). -/
theorem observable_range_invariant (cfg : Config) (s : St) (hs : Reach cfg s) :
    inRange s.desiredPosition = true ∧
      (inRange s.startingPosition = true ∨ s.startingPosition = D.nan) ∧
      (inRange s.currentPosition = true ∨ s.currentPosition = D.nan) := by
  induction hs with
  | boot e h =>
    exact ⟨by norm_num [bootState, inRange], Or.inl (by norm_num [bootState, inRange]),
      Or.inl h⟩
  | move s' q m hs h0 h1 ih =>
    by_cases hg : moveGuard s' (D.fin q) = true
    · refine ⟨?_, ?_, ?_⟩
      · rw [startSpinning_desiredPosition m hg]
        simp [inRange, h0, h1]
      · rw [startSpinning_startingPosition m hg]
        exact ih.2.2
      · rw [startSpinning_currentPosition]
        exact ih.2.2
    · rw [startSpinning_of_guard_false m (eq_false_of_ne_true hg)]
      exact ih
  | tick s' now hs ih =>
    by_cases hspin : s'.spinning = true
    · by_cases hcc : completeCond s' now = true
      · rw [loop_eq_stop cfg hspin hcc]
        exact ⟨ih.1, ih.2.1, Or.inl ih.1⟩
      · have hc2 := eq_false_of_ne_true hcc
        have hr := range_or_nan_of_not_complete hc2
        by_cases hw : (cfg.servoResetRequired &&
            decide (millisPerServoReset cfg ≤ usub32 now s'.lastResetMillis)) = true
        · rw [loop_eq_reset cfg hspin hc2 hw]
          exact ⟨ih.1, ih.2.1, hr⟩
        · rw [loop_eq_estimate cfg hspin hc2 (eq_false_of_ne_true hw)]
          exact ⟨ih.1, ih.2.1, hr⟩
    · rw [loop_not_spinning cfg now (eq_false_of_ne_true hspin)]
      exact ih

/-- Witness for the C8 amended theorem: the state after boot at 0, a move to
50 and the stopping tick at 5000 ms is reachable and satisfies the
invariant. -/
theorem observable_range_invariant_witness :
    inRange (loop cfgA sessA 5000).desiredPosition = true ∧
      (inRange (loop cfgA sessA 5000).startingPosition = true ∨
        (loop cfgA sessA 5000).startingPosition = D.nan) ∧
      (inRange (loop cfgA sessA 5000).currentPosition = true ∨
        (loop cfgA sessA 5000).currentPosition = D.nan) :=
  observable_range_invariant cfgA (loop cfgA sessA 5000)
    (Reach.tick sessA 5000 (Reach.move (bootState cfgA eeA) 50 0
      (Reach.boot eeA (by norm_num [bootState, inRange, eeA, cfgA]))
      (by norm_num) (by norm_num)))

end Blinds
